import Mathlib

/-!
Verification development for the mock authentication/session hook of the
Smart-Vehicle-Health-Monitoring app (hooks/useAuth.ts).

The hook is shallowly embedded: React state (`user`, `loading`, `error`)
becomes an explicit `AuthState` record, the AsyncStorage key-value store
becomes a `Store` record with its two string-valued slots (`users`,
`currentUser`), and every async operation becomes a pure function from the
old state, the store, and the outcomes of the store primitives it awaits
(a `Option String` per primitive call: `none` means the call succeeds
against the store, `some msg` means it throws `msg`) to the new state, the
new store, and the result surfaced to the caller (`Except String Unit`,
`Except.error` modelling a thrown error).

JSON.stringify / JSON.parse on User records and lists of User records are
modelled by a character-level codec (`encodeUser`/`decodeUser`,
`encodeUsers`/`decodeUsers`) faithful to the canonical serialization this
code itself produces: objects with the keys in their insertion order
(id, name, email, createdAt) and JSON string escaping of `"`, `\` and
control characters. `Date.now()` and `new Date().toISOString()` are passed
in as explicit parameters (`now`, `nowIso`).
-/

/-- User record of useAuth.ts: `id`, `name`, `email`, optional `createdAt`.
`createdAt := none` models an absent field (omitted by JSON.stringify). -/
structure User where
  id : String
  name : String
  email : String
  createdAt : Option String
deriving Repr, DecidableEq

/-- Partial<User> argument of updateUser: each field may be absent. -/
structure PartialUser where
  id : Option String := none
  name : Option String := none
  email : Option String := none
  createdAt : Option String := none
deriving Repr, DecidableEq

/-- React state of the hook: `user`, `loading`, `error`. -/
structure AuthState where
  user : Option User
  loading : Bool
  error : Option String
deriving Repr, DecidableEq

/-- AsyncStorage slots used by the hook, both JSON strings or absent. -/
structure Store where
  users : Option String
  currentUser : Option String
deriving Repr, DecidableEq

/-! JS string primitives used by the hook, modelled on `List Char`. -/

/-- Whitespace recognised by the model of `String.prototype.trim`
(the common ASCII whitespace characters). -/
def jsIsWs (c : Char) : Bool :=
  c = ' ' || c = '\t' || c = '\n' || c = '\x0d' || c = '\x0b' || c = '\x0c'

/-- Model of `s.trim()`: drop leading and trailing whitespace. -/
def jsTrim (s : String) : String :=
  ⟨((s.data.dropWhile jsIsWs).reverse.dropWhile jsIsWs).reverse⟩

/-- Model of `s.toLowerCase()` as per-character lowercasing. -/
def jsToLower (s : String) : String :=
  ⟨s.data.map Char.toLower⟩

/-- Model of `s.includes(c)` for a single-character needle. -/
def jsIncludesChar (s : String) (c : Char) : Bool :=
  s.data.contains c

/-! JSON codec for the canonical serialization produced by the hook. -/

/-- Lower-case hex digit for a value below 16. -/
def hexDigit (n : Nat) : Char :=
  if n < 10 then Char.ofNat (48 + n) else Char.ofNat (87 + n)

/-- JSON string escaping of one character, as JSON.stringify performs it:
quote and backslash get a backslash escape, the named control characters
get their short escapes, other control characters get a \u00XX escape,
everything else is emitted verbatim. -/
def escChar (c : Char) : List Char :=
  if c = '"' then ['\\', '"']
  else if c = '\\' then ['\\', '\\']
  else if c = '\x08' then ['\\', 'b']
  else if c = '\t' then ['\\', 't']
  else if c = '\n' then ['\\', 'n']
  else if c = '\x0c' then ['\\', 'f']
  else if c = '\x0d' then ['\\', 'r']
  else if c.toNat < 32 then
    ['\\', 'u', '0', '0', hexDigit (c.toNat / 16), hexDigit (c.toNat % 16)]
  else [c]

/-- Escape every character of a string body. -/
def escBody : List Char → List Char
  | [] => []
  | c :: cs => escChar c ++ escBody cs

/-- JSON string literal for `s`: opening quote, escaped body, closing quote. -/
def encodeStr (s : String) : List Char :=
  '"' :: (escBody s.data ++ ['"'])

/-- Value of a hex digit character, `none` for a non-hex character. -/
def hexVal (c : Char) : Option Nat :=
  if 48 ≤ c.toNat ∧ c.toNat ≤ 57 then some (c.toNat - 48)
  else if 97 ≤ c.toNat ∧ c.toNat ≤ 102 then some (c.toNat - 87)
  else if 65 ≤ c.toNat ∧ c.toNat ≤ 70 then some (c.toNat - 55)
  else none

/-- Single-character JSON escapes accepted by JSON.parse (other than \u). -/
def unescSimple (e : Char) : Option Char :=
  if e = '"' then some '"'
  else if e = '\\' then some '\\'
  else if e = '/' then some '/'
  else if e = 'b' then some '\x08'
  else if e = 't' then some '\t'
  else if e = 'n' then some '\n'
  else if e = 'f' then some '\x0c'
  else if e = 'r' then some '\x0d'
  else none

/-- Prepend a character to the string part of a parse result. -/
def pushc (c : Char) : Option (List Char × List Char) → Option (List Char × List Char)
  | some (s, r) => some (c :: s, r)
  | none => none

/-- Read a JSON string body up to and including the closing quote, after the
opening quote has already been consumed; returns the decoded characters and
the unconsumed remainder. -/
def readStr : List Char → Option (List Char × List Char)
  | [] => none
  | c :: rest =>
    if c = '"' then some ([], rest)
    else if c = '\\' then
      match rest with
      | [] => none
      | e :: rest2 =>
        if e = 'u' then
          match rest2 with
          | h1 :: h2 :: h3 :: h4 :: rest3 =>
            match hexVal h1, hexVal h2, hexVal h3, hexVal h4 with
            | some a, some b, some c2, some d =>
              pushc (Char.ofNat (4096 * a + 256 * b + 16 * c2 + d)) (readStr rest3)
            | _, _, _, _ => none
          | _ => none
        else
          match unescSimple e with
          | some ch => pushc ch (readStr rest2)
          | none => none
    else pushc c (readStr rest)
  termination_by structural input => input

/-- Read a complete JSON string literal: an opening quote, then the body up
to the closing quote. -/
def readQuoted (input : List Char) : Option (List Char × List Char) :=
  match input with
  | '"' :: rest => readStr rest
  | _ => none

/-- Match a literal prefix, returning the remainder on success. -/
def expects : List Char → List Char → Option (List Char)
  | [], input => some input
  | _ :: _, [] => none
  | p :: ps, c :: cs => if c = p then expects ps cs else none

/-- Literal characters opening a serialized User object: a brace and the
quoted id key with its colon. -/
def openUser : List Char := ("\x7b\"id\":").data

/-- Literal characters between the id value and the name value. -/
def nameKey : List Char := (",\"name\":").data

/-- Literal characters between the name value and the email value. -/
def emailKey : List Char := (",\"email\":").data

/-- Literal characters of the quoted createdAt key with its colon. -/
def createdKey : List Char := ("\"createdAt\":").data

/-- Closing brace of an object. -/
def closeBrace : Char := Char.ofNat 125

/-- Characters of JSON.stringify applied to a User record: keys in insertion
order (id, name, email, createdAt), createdAt omitted when absent. -/
def encodeUserChars (u : User) : List Char :=
  openUser ++ encodeStr u.id ++ nameKey ++ encodeStr u.name ++ emailKey ++ encodeStr u.email ++
    (match u.createdAt with
     | none => [closeBrace]
     | some c => ',' :: (createdKey ++ encodeStr c ++ [closeBrace]))

/-- Parse one serialized User object (canonical shape), returning the record
and the unconsumed remainder. -/
def parseUserChars (input : List Char) : Option (User × List Char) := do
  let r1 ← expects openUser input
  let (idc, r2) ← readQuoted r1
  let r3 ← expects nameKey r2
  let (nc, r4) ← readQuoted r3
  let r5 ← expects emailKey r4
  let (ec, r6) ← readQuoted r5
  match r6 with
  | [] => none
  | c :: r7 =>
    if c = closeBrace then
      some (⟨⟨idc⟩, ⟨nc⟩, ⟨ec⟩, none⟩, r7)
    else if c = ',' then do
      let r8 ← expects createdKey r7
      let (cc, r9) ← readQuoted r8
      match r9 with
      | [] => none
      | d :: r10 =>
        if d = closeBrace then some (⟨⟨idc⟩, ⟨nc⟩, ⟨ec⟩, some ⟨cc⟩⟩, r10) else none
    else none

/-- JSON.stringify of a User record, as a string. -/
def encodeUser (u : User) : String := ⟨encodeUserChars u⟩

/-- JSON.parse of a User record in the canonical serialization; `none`
models a parse error. The whole input must be consumed. -/
def decodeUser (s : String) : Option User :=
  match parseUserChars s.data with
  | some (u, []) => some u
  | _ => none

/-- Characters after the first element of a serialized list: a comma and an
element per remaining record, then the closing bracket. -/
def usersTail : List User → List Char
  | [] => [']']
  | u :: us => ',' :: (encodeUserChars u ++ usersTail us)

/-- Characters of JSON.stringify applied to a list of User records. -/
def encodeUsersChars : List User → List Char
  | [] => ['[', ']']
  | u :: us => '[' :: (encodeUserChars u ++ usersTail us)

/-- Parse the comma-separated elements of a non-empty serialized list, with
fuel bounding the number of elements. -/
def parseItemsF : Nat → List Char → Option (List User × List Char)
  | 0, _ => none
  | fuel + 1, input => do
    let (u, r) ← parseUserChars input
    match r with
    | ']' :: r2 => some ([u], r2)
    | ',' :: r2 => do
      let (us, r3) ← parseItemsF fuel r2
      some (u :: us, r3)
    | _ => none

/-- Parse a serialized list of User records (canonical shape). -/
def parseUsersChars (input : List Char) : Option (List User × List Char) :=
  match input with
  | '[' :: r =>
    match r with
    | ']' :: r2 => some ([], r2)
    | _ => parseItemsF (r.length + 1) r
  | _ => none

/-- JSON.stringify of a list of User records, as a string. -/
def encodeUsers (l : List User) : String := ⟨encodeUsersChars l⟩

/-- JSON.parse of a list of User records in the canonical serialization;
`none` models a parse error. The whole input must be consumed. -/
def decodeUsers (s : String) : Option (List User) :=
  match parseUsersChars s.data with
  | some (l, []) => some l
  | _ => none

/-- The list of users a store read yields: an absent `users` slot is treated
as the empty list (`existingUsers ? JSON.parse(existingUsers) : []`); a
present slot must parse, `none` models a JSON.parse error. -/
def storedUsers (store : Store) : Option (List User) :=
  match store.users with
  | none => some []
  | some s => decodeUsers s

/-! Operations of the hook. -/

/-- Shallow merge of updateUser: a spread of the partial fields over the
current record, later fields overriding. -/
def mergeUser (u : User) (p : PartialUser) : User :=
  { id := p.id.getD u.id
    name := p.name.getD u.name
    email := p.email.getD u.email
    createdAt := match p.createdAt with | some c => some c | none => u.createdAt }

/-- The User record mockApi.register constructs: a Date.now()-derived id and
an ISO creation time. -/
def mkNewUser (now : Nat) (name email nowIso : String) : User :=
  { id := toString now, name := name, email := email, createdAt := some nowIso }

namespace mockApi

/-- Model of mockApi.register. Validates the email shape and password length
again, reads the users slot (`getFail` is the outcome of the awaited
getItem), fails when a record with the candidate email exists, otherwise
appends the new record and writes the list back (`setFail` is the outcome of
the awaited setItem). Returns the thrown error or the created user, plus the
store after the call. -/
def register (name email password : String) (store : Store) (now : Nat) (nowIso : String)
    (getFail setFail : Option String) : Except String User × Store :=
  if ¬ jsIncludesChar email '@' then (Except.error "Invalid email format", store)
  else if password.length < 8 then (Except.error "Password must be at least 8 characters", store)
  else
    match getFail with
    | some msg => (Except.error msg, store)
    | none =>
      match storedUsers store with
      | none => (Except.error "SyntaxError: Unexpected token in JSON", store)
      | some users =>
        if users.any (fun u => u.email == email) then
          (Except.error "User already exists with this email", store)
        else
          let newUser := mkNewUser now name email nowIso
          match setFail with
          | some msg => (Except.error msg, store)
          | none => (Except.ok newUser, { store with users := some (encodeUsers (users ++ [newUser])) })

/-- Model of mockApi.login. Reads the users slot (`getFail` is the outcome
of the awaited getItem) and scans linearly for a record with matching email;
the password is not inspected. Performs no writes. -/
def login (email password : String) (store : Store) (getFail : Option String) :
    Except String User :=
  match getFail with
  | some msg => Except.error msg
  | none =>
    match storedUsers store with
    | none => Except.error "SyntaxError: Unexpected token in JSON"
    | some users =>
      match users.find? (fun u => u.email == email) with
      | none => Except.error "Invalid email or password"
      | some u => Except.ok u

end mockApi

/-- Model of checkExistingSession. Sets loading, reads the currentUser slot
(`getFail` is the outcome of the awaited getItem) and, when a value is
present and parses, adopts it as the active user; any thrown failure is
logged and swallowed. Loading is reset in all cases; the store is not
written. -/
def checkExistingSession (st : AuthState) (store : Store) (getFail : Option String) :
    AuthState :=
  match getFail with
  | some _ => { st with loading := false }
  | none =>
    match store.currentUser with
    | none => { st with loading := false }
    | some s =>
      match decodeUser s with
      | none => { st with loading := false }
      | some u => { st with user := some u, loading := false }

/-- Model of signUp. Sets loading and clears the error, runs the three
validation checks, delegates to mockApi.register with the trimmed name and
the trimmed lower-cased email, persists the created record under currentUser
(`setCurrentFail` is the outcome of that awaited setItem) and adopts it as
the session user. Any thrown failure is captured into the error state and
re-raised; loading is reset in all cases. -/
def signUp (name email password : String) (st : AuthState) (store : Store)
    (now : Nat) (nowIso : String) (getUsersFail setUsersFail setCurrentFail : Option String) :
    AuthState × Store × Except String Unit :=
  if (jsTrim name).isEmpty || (jsTrim email).isEmpty || password.isEmpty then
    ({ st with loading := false, error := some "All fields are required" }, store,
      Except.error "All fields are required")
  else if password.length < 8 then
    ({ st with loading := false, error := some "Password must be at least 8 characters long" },
      store, Except.error "Password must be at least 8 characters long")
  else if ¬ (jsIncludesChar email '@' && jsIncludesChar email '.') then
    ({ st with loading := false, error := some "Please enter a valid email address" }, store,
      Except.error "Please enter a valid email address")
  else
    match mockApi.register (jsTrim name) (jsToLower (jsTrim email)) password store now nowIso
        getUsersFail setUsersFail with
    | (Except.error msg, store1) =>
      ({ st with loading := false, error := some msg }, store1, Except.error msg)
    | (Except.ok newUser, store1) =>
      match setCurrentFail with
      | some msg => ({ st with loading := false, error := some msg }, store1, Except.error msg)
      | none =>
        ({ st with user := some newUser, loading := false, error := none },
          { store1 with currentUser := some (encodeUser newUser) }, Except.ok ())

/-- Model of signIn. Sets loading and clears the error, validates that the
trimmed email and the password are non-empty, delegates to mockApi.login
with the trimmed lower-cased email, persists the found record under
currentUser (`setCurrentFail` is the outcome of that awaited setItem) and
adopts it as the session user. Any thrown failure is captured into the
error state and re-raised; loading is reset in all cases. -/
def signIn (email password : String) (st : AuthState) (store : Store)
    (getUsersFail setCurrentFail : Option String) :
    AuthState × Store × Except String Unit :=
  if (jsTrim email).isEmpty || password.isEmpty then
    ({ st with loading := false, error := some "Email and password are required" }, store,
      Except.error "Email and password are required")
  else
    match mockApi.login (jsToLower (jsTrim email)) password store getUsersFail with
    | Except.error msg =>
      ({ st with loading := false, error := some msg }, store, Except.error msg)
    | Except.ok u =>
      match setCurrentFail with
      | some msg => ({ st with loading := false, error := some msg }, store, Except.error msg)
      | none =>
        ({ st with user := some u, loading := false, error := none },
          { store with currentUser := some (encodeUser u) }, Except.ok ())

/-- Model of signOut. Sets loading, awaits removeItem on the currentUser
slot (`removeFail` is that call's outcome) and only then clears the session
user; a thrown failure is logged and swallowed, so the caller always sees a
normal return, but the user state is only cleared when the removal
succeeded. Loading is reset in all cases; the error state is not touched. -/
def signOut (st : AuthState) (store : Store) (removeFail : Option String) :
    AuthState × Store × Except String Unit :=
  match removeFail with
  | some _ => ({ st with loading := false }, store, Except.ok ())
  | none =>
    ({ st with user := none, loading := false }, { store with currentUser := none },
      Except.ok ())

/-- Model of updateUser. Fails when no session is active; otherwise merges
the partial fields, persists the merged record under currentUser
(`setCurrentFail` is that awaited setItem's outcome), then best-effort
mirrors it into the users list: reads the slot (`getUsersFail` the outcome),
skips silently when no value is stored, otherwise parses, replaces the entry
with the session user's id and writes the list back (`setUsersFail` the
outcome). The session user is only set at the very end, so any thrown
failure, captured into the error state and re-raised, leaves it unchanged.
Loading is never touched. -/
def updateUser (p : PartialUser) (st : AuthState) (store : Store)
    (setCurrentFail getUsersFail setUsersFail : Option String) :
    AuthState × Store × Except String Unit :=
  match st.user with
  | none =>
    ({ st with error := some "No user logged in" }, store, Except.error "No user logged in")
  | some u =>
    let updated := mergeUser u p
    match setCurrentFail with
    | some msg => ({ st with error := some msg }, store, Except.error msg)
    | none =>
      let store1 := { store with currentUser := some (encodeUser updated) }
      match getUsersFail with
      | some msg => ({ st with error := some msg }, store1, Except.error msg)
      | none =>
        match store1.users with
        | none => ({ st with user := some updated }, store1, Except.ok ())
        | some s =>
          match decodeUsers s with
          | none =>
            ({ st with error := some "SyntaxError: Unexpected token in JSON" }, store1,
              Except.error "SyntaxError: Unexpected token in JSON")
          | some users =>
            let updatedUsers := users.map (fun x => if x.id == u.id then updated else x)
            match setUsersFail with
            | some msg => ({ st with error := some msg }, store1, Except.error msg)
            | none =>
              ({ st with user := some updated },
                { store1 with users := some (encodeUsers updatedUsers) }, Except.ok ())

/-! Auxiliary lemmas. -/

/-- A character that fails the predicate survives dropWhile. -/
theorem mem_dropWhile_of_mem {c : Char} {p : Char → Bool} :
    ∀ {l : List Char}, c ∈ l → p c = false → c ∈ l.dropWhile p := by
  intro l h hc
  induction l with
  | nil => cases h
  | cons x xs ih =>
    rcases List.mem_cons.mp h with rfl | hmem
    · rw [List.dropWhile_cons, if_neg (by simp [hc])]
      exact List.mem_cons_self _ _
    · rw [List.dropWhile_cons]
      by_cases hx : p x = true
      · rw [if_pos hx]; exact ih hmem
      · rw [if_neg hx]; exact h

/-- A non-whitespace character of `s` survives trimming. -/
theorem mem_jsTrim_of_mem {c : Char} {s : String} (h : c ∈ s.data)
    (hc : jsIsWs c = false) : c ∈ (jsTrim s).data := by
  unfold jsTrim
  simp only [List.mem_reverse]
  exact mem_dropWhile_of_mem (by
    simpa using mem_dropWhile_of_mem h hc) hc

/-- jsIncludesChar is preserved by trimming for a non-whitespace needle. -/
theorem jsIncludesChar_jsTrim {c : Char} {s : String} (h : jsIncludesChar s c = true)
    (hc : jsIsWs c = false) : jsIncludesChar (jsTrim s) c = true := by
  unfold jsIncludesChar at *
  exact List.elem_iff.mpr (mem_jsTrim_of_mem (List.elem_iff.mp h) hc)

/-- jsIncludesChar is preserved by lowercasing for a needle fixed by
Char.toLower. -/
theorem jsIncludesChar_jsToLower {c : Char} {s : String} (h : jsIncludesChar s c = true)
    (hc : Char.toLower c = c) : jsIncludesChar (jsToLower s) c = true := by
  unfold jsIncludesChar jsToLower at *
  exact List.elem_iff.mpr (List.mem_map.mpr ⟨c, List.elem_iff.mp h, hc⟩)

/-- hexVal inverts hexDigit below 16. -/
theorem hexVal_hexDigit : ∀ m, m < 16 → hexVal (hexDigit m) = some m := by decide

/-- expects consumes exactly its pattern. -/
theorem expects_append : ∀ (pat rest : List Char), expects pat (pat ++ rest) = some rest := by
  intro pat
  induction pat with
  | nil => intro rest; rfl
  | cons p ps ih => intro rest; simp [expects, ih]

/-- readStr at a closing quote. -/
theorem readStr_quote (rest : List Char) : readStr ('"' :: rest) = some ([], rest) := by
  rw [readStr.eq_def]
  simp

/-- readStr at a simple escape. -/
theorem readStr_esc_simple (e ch : Char) (rest : List Char) (he : ¬ e = 'u')
    (h : unescSimple e = some ch) :
    readStr ('\\' :: e :: rest) = pushc ch (readStr rest) := by
  rw [readStr.eq_def]
  simp [he, h]

/-- readStr at a unicode escape with valid digits. -/
theorem readStr_esc_u (h1 h2 h3 h4 : Char) (a b c d : Nat) (rest : List Char)
    (e1 : hexVal h1 = some a) (e2 : hexVal h2 = some b)
    (e3 : hexVal h3 = some c) (e4 : hexVal h4 = some d) :
    readStr ('\\' :: 'u' :: h1 :: h2 :: h3 :: h4 :: rest) =
      pushc (Char.ofNat (4096 * a + 256 * b + 16 * c + d)) (readStr rest) := by
  rw [readStr.eq_def]
  simp [e1, e2, e3, e4]

/-- readStr at an ordinary character. -/
theorem readStr_other (c : Char) (rest : List Char) (h1 : ¬ c = '"') (h2 : ¬ c = '\\') :
    readStr (c :: rest) = pushc c (readStr rest) := by
  rw [readStr.eq_def]
  simp [h1, h2]

/-- readStr inverts escBody: the decoded body is recovered and the input
after the closing quote is the remainder. -/
theorem readStr_escBody : ∀ (s rest : List Char),
    readStr (escBody s ++ '"' :: rest) = some (s, rest) := by
  intro s
  induction s with
  | nil =>
    intro rest
    simpa [escBody] using readStr_quote rest
  | cons c cs ih =>
    intro rest
    rw [escBody, List.append_assoc]
    unfold escChar
    split_ifs with h1 h2 h3 h4 h5 h6 h7 h8
    · subst h1
      rw [List.cons_append, List.cons_append, List.nil_append,
        readStr_esc_simple '"' '"' _ (by decide) (by decide), ih, pushc]
    · subst h2
      rw [List.cons_append, List.cons_append, List.nil_append,
        readStr_esc_simple '\\' '\\' _ (by decide) (by decide), ih, pushc]
    · subst h3
      rw [List.cons_append, List.cons_append, List.nil_append,
        readStr_esc_simple 'b' '\x08' _ (by decide) (by decide), ih, pushc]
    · subst h4
      rw [List.cons_append, List.cons_append, List.nil_append,
        readStr_esc_simple 't' '\t' _ (by decide) (by decide), ih, pushc]
    · subst h5
      rw [List.cons_append, List.cons_append, List.nil_append,
        readStr_esc_simple 'n' '\n' _ (by decide) (by decide), ih, pushc]
    · subst h6
      rw [List.cons_append, List.cons_append, List.nil_append,
        readStr_esc_simple 'f' '\x0c' _ (by decide) (by decide), ih, pushc]
    · subst h7
      rw [List.cons_append, List.cons_append, List.nil_append,
        readStr_esc_simple 'r' '\x0d' _ (by decide) (by decide), ih, pushc]
    · have hdiv : c.toNat / 16 < 16 := by omega
      have hmod : c.toNat % 16 < 16 := Nat.mod_lt _ (by norm_num)
      have harith : 4096 * 0 + 256 * 0 + 16 * (c.toNat / 16) + c.toNat % 16 = c.toNat := by
        omega
      simp only [List.cons_append, List.nil_append]
      rw [readStr_esc_u '0' '0' _ _ 0 0 (c.toNat / 16) (c.toNat % 16) _
          (by decide) (by decide) (hexVal_hexDigit _ hdiv) (hexVal_hexDigit _ hmod),
        ih, harith, Char.ofNat_toNat, pushc]
    · simp only [List.cons_append, List.nil_append]
      rw [readStr_other c _ h1 h2, ih, pushc]

/-- readQuoted inverts encodeStr, leaving the remainder. -/
theorem readQuoted_encodeStr (s : String) (tail : List Char) :
    readQuoted (encodeStr s ++ tail) = some (s.data, tail) := by
  have : encodeStr s ++ tail = '"' :: (escBody s.data ++ '"' :: tail) := by
    simp [encodeStr]
  rw [this, readQuoted]
  exact readStr_escBody s.data tail

/-- parseUserChars inverts encodeUserChars, leaving the remainder. -/
theorem parseUser_encodeUser (u : User) (rest : List Char) :
    parseUserChars (encodeUserChars u ++ rest) = some (u, rest) := by
  obtain ⟨uid, uname, uemail, ucr⟩ := u
  cases ucr with
  | none =>
    simp only [encodeUserChars, List.append_assoc]
    rw [parseUserChars]
    simp [expects_append, readQuoted_encodeStr, closeBrace]
  | some ca =>
    simp only [encodeUserChars, List.append_assoc]
    rw [parseUserChars]
    simp [expects_append, readQuoted_encodeStr, closeBrace]

/-- decodeUser inverts encodeUser. -/
theorem decodeUser_encodeUser (u : User) : decodeUser (encodeUser u) = some u := by
  have h := parseUser_encodeUser u []
  rw [List.append_nil] at h
  rw [decodeUser]
  show (match parseUserChars (encodeUserChars u) with
    | some (u, []) => some u
    | _ => none) = some u
  rw [h]

/-- usersTail is never shorter than the number of remaining records plus the
closing bracket. -/
theorem usersTail_length (us : List User) : us.length + 1 ≤ (usersTail us).length := by
  induction us with
  | nil => simp [usersTail]
  | cons u us ih => simp [usersTail]; omega

/-- parseItemsF inverts the element encoding of a non-empty list when given
enough fuel. -/
theorem parseItemsF_encode : ∀ (us : List User) (u : User) (fuel : Nat) (rest : List Char),
    us.length < fuel →
    parseItemsF fuel (encodeUserChars u ++ usersTail us ++ rest) = some (u :: us, rest) := by
  intro us
  induction us with
  | nil =>
    intro u fuel rest hfuel
    match fuel, hfuel with
    | fuel + 1, _ =>
      rw [parseItemsF]
      simp [usersTail, List.append_assoc, parseUser_encodeUser]
  | cons v vs ih =>
    intro u fuel rest hfuel
    match fuel, hfuel with
    | fuel + 1, hfuel =>
      rw [parseItemsF]
      have hassoc : encodeUserChars u ++ usersTail (v :: vs) ++ rest =
          encodeUserChars u ++ (',' :: (encodeUserChars v ++ usersTail vs ++ rest)) := by
        simp [usersTail, List.append_assoc]
      rw [hassoc]
      simp only [parseUser_encodeUser, Option.bind_eq_bind, Option.some_bind]
      have hlt : vs.length < fuel := by
        simp at hfuel
        omega
      have hres := ih v fuel rest hlt
      rw [List.append_assoc] at hres
      simp [hres]

/-- parseUsersChars inverts encodeUsersChars, leaving the remainder. -/
theorem parseUsers_encodeUsers (l : List User) (rest : List Char) :
    parseUsersChars (encodeUsersChars l ++ rest) = some (l, rest) := by
  cases l with
  | nil => simp [encodeUsersChars, parseUsersChars]
  | cons u us =>
    have hgoal : encodeUsersChars (u :: us) ++ rest =
        '[' :: (encodeUserChars u ++ usersTail us ++ rest) := by
      simp [encodeUsersChars, List.append_assoc]
    rw [hgoal]
    have hhead : (encodeUserChars u ++ usersTail us ++ rest).head? = some (Char.ofNat 123) := by
      have : (encodeUserChars u).head? = some (Char.ofNat 123) := by
        simp [encodeUserChars, openUser]
      cases henc : encodeUserChars u with
      | nil => rw [henc] at this; cases this
      | cons y ys =>
        rw [henc] at this
        simpa using this
    cases hmatch : encodeUserChars u ++ usersTail us ++ rest with
    | nil => rw [hmatch] at hhead; cases hhead
    | cons x xs =>
      rw [hmatch] at hhead
      have hx123 : x = Char.ofNat 123 := by simpa using hhead
      have hx : ¬ x = ']' := by rw [hx123]; decide
      have hfuel : us.length < (x :: xs).length + 1 := by
        have h1 := usersTail_length us
        have h2 := congrArg List.length hmatch
        simp [List.length_append] at h2
        simp
        omega
      have hres := parseItemsF_encode us u ((x :: xs).length + 1) rest hfuel
      rw [hmatch] at hres
      rw [parseUsersChars.eq_def]
      simp only []
      rw [show (x :: xs).length = xs.length + 1 from by simp] at hres
      simpa [hx] using hres

/-- decodeUsers inverts encodeUsers. -/
theorem decodeUsers_encodeUsers (l : List User) : decodeUsers (encodeUsers l) = some l := by
  have h := parseUsers_encodeUsers l []
  rw [List.append_nil] at h
  rw [decodeUsers]
  show (match parseUsersChars (encodeUsersChars l) with
    | some (l, []) => some l
    | _ => none) = some l
  rw [h]

/-- A store whose users slot holds an encoded list reads back as that list. -/
theorem storedUsers_encode (l : List User) (cu : Option String) :
    storedUsers ⟨some (encodeUsers l), cu⟩ = some l := by
  rw [storedUsers]
  exact decodeUsers_encodeUsers l

/-- A string different from the empty string has isEmpty false. -/
theorem isEmpty_eq_false {s : String} (h : ¬ s = "") : s.isEmpty = false := by
  cases hb : s.isEmpty
  · rfl
  · exact absurd ((String.isEmpty_iff s).mp hb) h

/-- A string of length at least 8 is not empty. -/
theorem ne_empty_of_len8 {s : String} (h : 8 ≤ s.length) : ¬ s = "" := by
  intro hc
  subst hc
  simp at h

/-- The at-sign survives the trim-and-lowercase normalization of signUp. -/
theorem atSign_normalized {email : String} (h : jsIncludesChar email '@' = true) :
    jsIncludesChar (jsToLower (jsTrim email)) '@' = true :=
  jsIncludesChar_jsToLower (jsIncludesChar_jsTrim h (by decide)) (by decide)

/-- Record used as concrete input in witnesses and counterexamples. -/
def demoUser : User :=
  { id := "1", name := "Ann", email := "ann@example.com",
    createdAt := some "2024-01-01T00:00:00.000Z" }

/-- C1 counterexample: when removeItem fails, signOut leaves the in-memory
user in place instead of clearing it, because setUser(null) sits after the
awaited removal and is skipped when it throws. -/
theorem c1_counterexample :
    (signOut ⟨some demoUser, false, none⟩ ⟨none, some (encodeUser demoUser)⟩
        (some "Remove failed")).1.user = some demoUser ∧
      some demoUser ≠ (none : Option User) := by
  constructor
  · rfl
  · simp

/-- C1 (amended): a failure of the store removal during signOut is swallowed
(the caller always sees a normal return) and the store is untouched, but the
in-memory session user is left unchanged, not cleared; only a successful
removal clears the session and the currentUser slot. -/
theorem c1_signOut_best_effort (st : AuthState) (store : Store) :
    (∀ msg, signOut st store (some msg) =
      ({ st with loading := false }, store, Except.ok ())) ∧
    signOut st store none =
      ({ st with user := none, loading := false }, { store with currentUser := none },
        Except.ok ()) := by
  constructor
  · intro msg
    rfl
  · rfl

/-- C2 counterexample: a throwing read of the users list during updateUser is
re-raised to the caller and the session user is not updated to the merged
record, contradicting the silent-skip-and-proceed claim. -/
theorem c2_counterexample :
    (updateUser ⟨none, some "New Name", none, none⟩ ⟨some demoUser, false, none⟩
        ⟨none, none⟩ none (some "Read failed") none).2.2 = Except.error "Read failed" ∧
    (updateUser ⟨none, some "New Name", none, none⟩ ⟨some demoUser, false, none⟩
        ⟨none, none⟩ none (some "Read failed") none).1.user = some demoUser ∧
    ¬ mergeUser demoUser ⟨none, some "New Name", none, none⟩ = demoUser := by
  refine ⟨rfl, rfl, ?_⟩
  decide

/-- C2 (amended): when the users-slot read returns no stored value the list
update is silently skipped, no error is raised, and the session user is
still set to the merged record; but when the read throws, the error is
captured and re-raised and the session user is left unchanged. -/
theorem c2_updateUser_list_read (p : PartialUser) (st : AuthState) (store : Store) (u : User)
    (h : st.user = some u) :
    (store.users = none →
      updateUser p st store none none none =
        ({ st with user := some (mergeUser u p) },
          { store with currentUser := some (encodeUser (mergeUser u p)) }, Except.ok ())) ∧
    (∀ msg, updateUser p st store none (some msg) none =
      ({ st with error := some msg },
        { store with currentUser := some (encodeUser (mergeUser u p)) }, Except.error msg)) := by
  obtain ⟨su, sl, se⟩ := st
  simp only at h
  subst h
  obtain ⟨sus, scu⟩ := store
  constructor
  · intro hu
    simp only at hu
    subst hu
    rfl
  · intro msg
    rfl

/-- C6: updateUser while signed out fails with the precondition error,
writing nothing to either store slot and leaving the session state's user
unchanged, for every partial-fields argument and any store outcome plan. -/
theorem c6_updateUser_requires_session (p : PartialUser) (st : AuthState) (store : Store)
    (o1 o2 o3 : Option String) (h : st.user = none) :
    updateUser p st store o1 o2 o3 =
      ({ st with error := some "No user logged in" }, store,
        Except.error "No user logged in") := by
  obtain ⟨su, sl, se⟩ := st
  simp only at h
  subst h
  rfl

/-- C6 witness at a concrete signed-out state. -/
theorem c6_witness :
    updateUser ⟨none, some "New", none, none⟩ ⟨none, false, none⟩ ⟨none, none⟩ none none none =
      (⟨none, false, some "No user logged in"⟩, ⟨none, none⟩,
        Except.error "No user logged in") :=
  c6_updateUser_requires_session ⟨none, some "New", none, none⟩ ⟨none, false, none⟩
    ⟨none, none⟩ none none none rfl

/-- C10: updateUser never touches the loading flag, in every branch:
success, precondition failure, or any store failure. -/
theorem c10_updateUser_loading_frame (p : PartialUser) (st : AuthState) (store : Store)
    (o1 o2 o3 : Option String) :
    (updateUser p st store o1 o2 o3).1.loading = st.loading := by
  obtain ⟨su, sl, se⟩ := st
  obtain ⟨sus, scu⟩ := store
  unfold updateUser
  cases su with
  | none => rfl
  | some u =>
    cases o1 with
    | some m => rfl
    | none =>
      cases o2 with
      | some m => rfl
      | none =>
        cases sus with
        | none => rfl
        | some s =>
          cases hds : decodeUsers s with
          | none => simp only [hds]
          | some users =>
            cases o3 with
            | some m => simp only [hds]
            | none => simp only [hds]

/-- C7: a session restored from a currentUser slot holding the JSON encoding
of a user record decodes it back to the same record and adopts it as the
active user. -/
theorem c7_restore_round_trip (st : AuthState) (us : Option String) (u : User) :
    checkExistingSession st ⟨us, some (encodeUser u)⟩ none =
      { st with user := some u, loading := false } := by
  unfold checkExistingSession
  simp [decodeUser_encodeUser]

/-- C2 witness at a concrete signed-in state, for both conjuncts. -/
theorem c2_witness :
    ((⟨none, none⟩ : Store).users = none →
      updateUser ⟨none, some "New Name", none, none⟩ ⟨some demoUser, false, none⟩
          ⟨none, none⟩ none none none =
        (⟨some (mergeUser demoUser ⟨none, some "New Name", none, none⟩), false, none⟩,
          ⟨none, some (encodeUser (mergeUser demoUser ⟨none, some "New Name", none, none⟩))⟩,
          Except.ok ())) ∧
    (∀ msg, updateUser ⟨none, some "New Name", none, none⟩ ⟨some demoUser, false, none⟩
        ⟨none, none⟩ none (some msg) none =
      (⟨some demoUser, false, some msg⟩,
        ⟨none, some (encodeUser (mergeUser demoUser ⟨none, some "New Name", none, none⟩))⟩,
        Except.error msg)) :=
  c2_updateUser_list_read ⟨none, some "New Name", none, none⟩ ⟨some demoUser, false, none⟩
    ⟨none, none⟩ demoUser rfl

/-- C5: with a non-empty (after trimming) email and a non-empty password,
signIn fails with the "Invalid email or password" error and leaves the
session user and the store unchanged exactly when no persisted record
matches the normalized email; when a matching record exists, signIn
succeeds for ANY password and adopts the first matching stored record. -/
theorem c5_signIn_lookup (email password : String) (st : AuthState) (store : Store)
    (l : List User)
    (hne : ¬ jsTrim email = "") (hpw : ¬ password = "")
    (hl : storedUsers store = some l) :
    ((∀ u ∈ l, ¬ u.email = jsToLower (jsTrim email)) →
      signIn email password st store none none =
        ({ st with loading := false, error := some "Invalid email or password" }, store,
          Except.error "Invalid email or password")) ∧
    (∀ u, l.find? (fun v => v.email == jsToLower (jsTrim email)) = some u →
      signIn email password st store none none =
        ({ st with user := some u, loading := false, error := none },
          { store with currentUser := some (encodeUser u) }, Except.ok ())) := by
  have h1 : (jsTrim email).isEmpty = false := isEmpty_eq_false hne
  have h2 : password.isEmpty = false := isEmpty_eq_false hpw
  constructor
  · intro hnomatch
    have hfind : l.find? (fun v => v.email == jsToLower (jsTrim email)) = none := by
      rw [List.find?_eq_none]
      intro x hx
      simp [hnomatch x hx]
    simp [signIn, mockApi.login, h1, h2, hl, hfind]
  · intro u hfind
    simp [signIn, mockApi.login, h1, h2, hl, hfind]

/-- C5 witness: a one-record store; both the no-match and the match branch
are exercised at concrete inputs (any password is accepted on a match). -/
theorem c5_witness :
    ((∀ u ∈ [demoUser], ¬ u.email = jsToLower (jsTrim "other@example.com")) →
      signIn "other@example.com" "pw" ⟨none, false, none⟩
          ⟨some (encodeUsers [demoUser]), none⟩ none none =
        (⟨none, false, some "Invalid email or password"⟩,
          ⟨some (encodeUsers [demoUser]), none⟩,
          Except.error "Invalid email or password")) ∧
    (∀ u, [demoUser].find? (fun v => v.email == jsToLower (jsTrim "other@example.com")) = some u →
      signIn "other@example.com" "pw" ⟨none, false, none⟩
          ⟨some (encodeUsers [demoUser]), none⟩ none none =
        (⟨some u, false, none⟩,
          ⟨some (encodeUsers [demoUser]), some (encodeUser u)⟩, Except.ok ())) :=
  c5_signIn_lookup "other@example.com" "pw" ⟨none, false, none⟩
    ⟨some (encodeUsers [demoUser]), none⟩ [demoUser] (by decide) (by decide)
    (storedUsers_encode [demoUser] none)

/-- C8: inputs that pass signUp's own precondition checks cannot reach the
registration procedure's internal validation branches: with the checks
satisfied, register never returns the "Invalid email format" or the
"Password must be at least 8 characters" error, whatever the store holds. -/
theorem c8_register_revalidation_unreachable (name email password : String) (store : Store)
    (now : Nat) (nowIso : String)
    (hat : jsIncludesChar email '@' = true) (hdot : jsIncludesChar email '.' = true)
    (hpw : 8 ≤ password.length) :
    ¬ (mockApi.register (jsTrim name) (jsToLower (jsTrim email)) password store now nowIso
        none none).1 = Except.error "Invalid email format" ∧
    ¬ (mockApi.register (jsTrim name) (jsToLower (jsTrim email)) password store now nowIso
        none none).1 = Except.error "Password must be at least 8 characters" := by
  have hat2 : jsIncludesChar (jsToLower (jsTrim email)) '@' = true := atSign_normalized hat
  have hlt : ¬ password.length < 8 := by omega
  unfold mockApi.register
  rw [if_neg (by simp [hat2]), if_neg hlt]
  cases hsu : storedUsers store with
  | none => simp
  | some users =>
    by_cases hdup : (users.any fun u => u.email == jsToLower (jsTrim email)) = true
    · simp [hdup]
    · simp [hdup]

/-- C8 witness at a concrete valid input. -/
theorem c8_witness :
    ¬ (mockApi.register (jsTrim "Ann") (jsToLower (jsTrim "Ann@Example.com")) "12345678"
        ⟨none, none⟩ 5 "t" none none).1 = Except.error "Invalid email format" ∧
    ¬ (mockApi.register (jsTrim "Ann") (jsToLower (jsTrim "Ann@Example.com")) "12345678"
        ⟨none, none⟩ 5 "t" none none).1 = Except.error "Password must be at least 8 characters" :=
  c8_register_revalidation_unreachable "Ann" "Ann@Example.com" "12345678" ⟨none, none⟩ 5 "t"
    (by decide) (by decide) (by decide)

/-- Full computation of a successful signUp run: the validation checks hold
and the normalized email is fresh in the stored list. -/
theorem signUp_success_eq (name email password : String) (st : AuthState) (store : Store)
    (l : List User) (now : Nat) (nowIso : String)
    (hname : ¬ jsTrim name = "") (hemail : ¬ jsTrim email = "")
    (hpw : 8 ≤ password.length)
    (hat : jsIncludesChar email '@' = true) (hdot : jsIncludesChar email '.' = true)
    (hl : storedUsers store = some l)
    (hfresh : (l.any fun u => u.email == jsToLower (jsTrim email)) = false) :
    signUp name email password st store now nowIso none none none =
      ({ st with user := some (mkNewUser now (jsTrim name) (jsToLower (jsTrim email)) nowIso), loading := false, error := none },
        ⟨some (encodeUsers (l ++ [mkNewUser now (jsTrim name) (jsToLower (jsTrim email)) nowIso])),
          some (encodeUser (mkNewUser now (jsTrim name) (jsToLower (jsTrim email)) nowIso))⟩,
        Except.ok ()) := by
  have h1 : (jsTrim name).isEmpty = false := isEmpty_eq_false hname
  have h2 : (jsTrim email).isEmpty = false := isEmpty_eq_false hemail
  have h3 : password.isEmpty = false := isEmpty_eq_false (ne_empty_of_len8 hpw)
  have hat2 := atSign_normalized hat
  have hlt : ¬ password.length < 8 := by omega
  simp [signUp, mockApi.register, h1, h2, h3, hat, hdot, hat2, hlt, hl, hfresh]

/-- Full computation of a signUp run rejected for a duplicate email. -/
theorem signUp_dup_eq (name email password : String) (st : AuthState) (store : Store)
    (l : List User) (now : Nat) (nowIso : String)
    (hname : ¬ jsTrim name = "") (hemail : ¬ jsTrim email = "")
    (hpw : 8 ≤ password.length)
    (hat : jsIncludesChar email '@' = true) (hdot : jsIncludesChar email '.' = true)
    (hl : storedUsers store = some l)
    (hdup : (l.any fun u => u.email == jsToLower (jsTrim email)) = true) :
    signUp name email password st store now nowIso none none none =
      ({ st with loading := false, error := some "User already exists with this email" },
        store, Except.error "User already exists with this email") := by
  have h1 : (jsTrim name).isEmpty = false := isEmpty_eq_false hname
  have h2 : (jsTrim email).isEmpty = false := isEmpty_eq_false hemail
  have h3 : password.isEmpty = false := isEmpty_eq_false (ne_empty_of_len8 hpw)
  have hat2 := atSign_normalized hat
  have hlt : ¬ password.length < 8 := by omega
  simp [signUp, mockApi.register, h1, h2, h3, hat, hdot, hat2, hlt, hl, hdup]

/-- C3: for valid inputs (name and email non-empty after trimming, password
length at least 8, email containing an at-sign and a dot) whose normalized
email is not yet in the persisted users list, signUp succeeds, the session
user becomes the newly created record, and a record with that email appears
exactly once in the persisted users list afterwards. -/
theorem c3_signUp_valid_succeeds (name email password : String) (st : AuthState) (store : Store)
    (l : List User) (now : Nat) (nowIso : String)
    (hname : ¬ jsTrim name = "") (hemail : ¬ jsTrim email = "")
    (hpw : 8 ≤ password.length)
    (hat : jsIncludesChar email '@' = true) (hdot : jsIncludesChar email '.' = true)
    (hl : storedUsers store = some l)
    (hfresh : ∀ u ∈ l, ¬ u.email = jsToLower (jsTrim email)) :
    (signUp name email password st store now nowIso none none none).2.2 = Except.ok () ∧
    (signUp name email password st store now nowIso none none none).1.user =
      some (mkNewUser now (jsTrim name) (jsToLower (jsTrim email)) nowIso) ∧
    storedUsers (signUp name email password st store now nowIso none none none).2.1 =
      some (l ++ [mkNewUser now (jsTrim name) (jsToLower (jsTrim email)) nowIso]) ∧
    ((l ++ [mkNewUser now (jsTrim name) (jsToLower (jsTrim email)) nowIso]).filter
        (fun v => v.email == jsToLower (jsTrim email))).length = 1 := by
  have hfreshB : (l.any fun u => u.email == jsToLower (jsTrim email)) = false := by
    rw [List.any_eq_false]
    intro x hx
    simp [hfresh x hx]
  have hmain := signUp_success_eq name email password st store l now nowIso hname hemail hpw
    hat hdot hl hfreshB
  rw [hmain]
  refine ⟨rfl, rfl, storedUsers_encode _ _, ?_⟩
  rw [List.filter_append]
  have hnil : l.filter (fun v => v.email == jsToLower (jsTrim email)) = [] := by
    rw [List.filter_eq_nil_iff]
    intro a ha
    simp [hfresh a ha]
  rw [hnil]
  simp [mkNewUser]

/-- C3 witness at a concrete fresh registration against an empty store. -/
theorem c3_witness :
    (signUp "Ann" "Ann@Example.com" "12345678" ⟨none, false, none⟩ ⟨none, none⟩
        5 "t" none none none).2.2 = Except.ok () ∧
    (signUp "Ann" "Ann@Example.com" "12345678" ⟨none, false, none⟩ ⟨none, none⟩
        5 "t" none none none).1.user =
      some (mkNewUser 5 (jsTrim "Ann") (jsToLower (jsTrim "Ann@Example.com")) "t") ∧
    storedUsers (signUp "Ann" "Ann@Example.com" "12345678" ⟨none, false, none⟩ ⟨none, none⟩
        5 "t" none none none).2.1 =
      some ([] ++ [mkNewUser 5 (jsTrim "Ann") (jsToLower (jsTrim "Ann@Example.com")) "t"]) ∧
    (([] ++ [mkNewUser 5 (jsTrim "Ann") (jsToLower (jsTrim "Ann@Example.com")) "t"]).filter
        (fun v : User => v.email == jsToLower (jsTrim "Ann@Example.com"))).length = 1 :=
  c3_signUp_valid_succeeds "Ann" "Ann@Example.com" "12345678" ⟨none, false, none⟩ ⟨none, none⟩
    [] 5 "t" (by decide) (by decide) (by decide) (by decide) (by decide) rfl (by simp)

/-- C4: calling signUp twice with the same email (the first call valid and
fresh) succeeds the first time and fails the second time with the
"User already exists with this email" conflict error; the second call leaves
the store untouched, so across the two calls the persisted users list gains
exactly one entry. -/
theorem c4_signUp_twice_conflict (name email password : String) (st : AuthState) (store : Store)
    (l : List User) (now now2 : Nat) (nowIso nowIso2 : String)
    (hname : ¬ jsTrim name = "") (hemail : ¬ jsTrim email = "")
    (hpw : 8 ≤ password.length)
    (hat : jsIncludesChar email '@' = true) (hdot : jsIncludesChar email '.' = true)
    (hl : storedUsers store = some l)
    (hfresh : ∀ u ∈ l, ¬ u.email = jsToLower (jsTrim email)) :
    (signUp name email password st store now nowIso none none none).2.2 = Except.ok () ∧
    (signUp name email password
        (signUp name email password st store now nowIso none none none).1
        (signUp name email password st store now nowIso none none none).2.1
        now2 nowIso2 none none none).2.2 =
      Except.error "User already exists with this email" ∧
    (signUp name email password
        (signUp name email password st store now nowIso none none none).1
        (signUp name email password st store now nowIso none none none).2.1
        now2 nowIso2 none none none).2.1 =
      (signUp name email password st store now nowIso none none none).2.1 ∧
    storedUsers (signUp name email password
        (signUp name email password st store now nowIso none none none).1
        (signUp name email password st store now nowIso none none none).2.1
        now2 nowIso2 none none none).2.1 =
      some (l ++ [mkNewUser now (jsTrim name) (jsToLower (jsTrim email)) nowIso]) ∧
    (l ++ [mkNewUser now (jsTrim name) (jsToLower (jsTrim email)) nowIso]).length =
      l.length + 1 := by
  have hfreshB : (l.any fun u => u.email == jsToLower (jsTrim email)) = false := by
    rw [List.any_eq_false]
    intro x hx
    simp [hfresh x hx]
  have h1 := signUp_success_eq name email password st store l now nowIso hname hemail hpw
    hat hdot hl hfreshB
  have hdup : ((l ++ [mkNewUser now (jsTrim name) (jsToLower (jsTrim email)) nowIso]).any
      fun u => u.email == jsToLower (jsTrim email)) = true := by
    rw [List.any_append]
    simp [mkNewUser]
  have h2 := signUp_dup_eq name email password
    ({ st with user := some (mkNewUser now (jsTrim name) (jsToLower (jsTrim email)) nowIso), loading := false, error := none })
    ⟨some (encodeUsers (l ++ [mkNewUser now (jsTrim name) (jsToLower (jsTrim email)) nowIso])),
      some (encodeUser (mkNewUser now (jsTrim name) (jsToLower (jsTrim email)) nowIso))⟩
    (l ++ [mkNewUser now (jsTrim name) (jsToLower (jsTrim email)) nowIso]) now2 nowIso2
    hname hemail hpw hat hdot (storedUsers_encode _ _) hdup
  simp only [h1]
  simp only [h2]
  simp [storedUsers_encode]

/-- C4 witness: the same concrete registration issued twice against an
initially empty store. -/
theorem c4_witness :
    (signUp "Ann" "Ann@Example.com" "12345678" ⟨none, false, none⟩ ⟨none, none⟩
        5 "t" none none none).2.2 = Except.ok () ∧
    (signUp "Ann" "Ann@Example.com" "12345678"
        (signUp "Ann" "Ann@Example.com" "12345678" ⟨none, false, none⟩ ⟨none, none⟩
          5 "t" none none none).1
        (signUp "Ann" "Ann@Example.com" "12345678" ⟨none, false, none⟩ ⟨none, none⟩
          5 "t" none none none).2.1
        9 "t2" none none none).2.2 =
      Except.error "User already exists with this email" ∧
    (signUp "Ann" "Ann@Example.com" "12345678"
        (signUp "Ann" "Ann@Example.com" "12345678" ⟨none, false, none⟩ ⟨none, none⟩
          5 "t" none none none).1
        (signUp "Ann" "Ann@Example.com" "12345678" ⟨none, false, none⟩ ⟨none, none⟩
          5 "t" none none none).2.1
        9 "t2" none none none).2.1 =
      (signUp "Ann" "Ann@Example.com" "12345678" ⟨none, false, none⟩ ⟨none, none⟩
        5 "t" none none none).2.1 ∧
    storedUsers (signUp "Ann" "Ann@Example.com" "12345678"
        (signUp "Ann" "Ann@Example.com" "12345678" ⟨none, false, none⟩ ⟨none, none⟩
          5 "t" none none none).1
        (signUp "Ann" "Ann@Example.com" "12345678" ⟨none, false, none⟩ ⟨none, none⟩
          5 "t" none none none).2.1
        9 "t2" none none none).2.1 =
      some ([] ++ [mkNewUser 5 (jsTrim "Ann") (jsToLower (jsTrim "Ann@Example.com")) "t"]) ∧
    ([] ++ [mkNewUser 5 (jsTrim "Ann") (jsToLower (jsTrim "Ann@Example.com")) "t"]).length =
      ([] : List User).length + 1 :=
  c4_signUp_twice_conflict "Ann" "Ann@Example.com" "12345678" ⟨none, false, none⟩ ⟨none, none⟩
    [] 5 9 "t" "t2" (by decide) (by decide) (by decide) (by decide) (by decide) rfl (by simp)

/-- Inversion of a successful mockApi.register call: the created record is
the timestamp-derived one, the stored list parsed, and the store gained
exactly the appended list. -/
theorem register_ok_inv {name email password : String} {store : Store} {now : Nat}
    {nowIso : String} {g s : Option String} {r : User} {store1 : Store}
    (h : mockApi.register name email password store now nowIso g s = (Except.ok r, store1)) :
    r = mkNewUser now name email nowIso ∧
    ∃ l, storedUsers store = some l ∧
      store1 = { store with users := some (encodeUsers (l ++ [r])) } := by
  unfold mockApi.register at h
  split at h
  · simp at h
  split at h
  · simp at h
  split at h
  · simp at h
  split at h
  · simp at h
  split at h
  · simp at h
  split at h
  · simp at h
  · simp at h
    obtain ⟨hr, hst⟩ := h
    rename_i l hsu hdup msf
    subst hr
    exact ⟨rfl, l, hsu, hst.symm⟩

/-- Inversion of a successful signUp call: the resulting state and store are
fully determined up to the parsed stored list. -/
theorem signUp_ok_inv {name email password : String} {st : AuthState} {store : Store}
    {now : Nat} {nowIso : String} {g su sc : Option String} {st1 : AuthState} {store1 : Store}
    (h : signUp name email password st store now nowIso g su sc = (st1, store1, Except.ok ())) :
    ∃ l, storedUsers store = some l ∧
      st1 = { st with user := some (mkNewUser now (jsTrim name) (jsToLower (jsTrim email)) nowIso), loading := false, error := none } ∧
      store1 = ⟨some (encodeUsers (l ++ [mkNewUser now (jsTrim name) (jsToLower (jsTrim email)) nowIso])),
        some (encodeUser (mkNewUser now (jsTrim name) (jsToLower (jsTrim email)) nowIso))⟩ := by
  unfold signUp at h
  split at h
  · simp at h
  split at h
  · simp at h
  split at h
  · simp at h
  split at h
  · simp at h
  · rename_i newUser store2 heq
    split at h
    · simp at h
    · simp at h
      obtain ⟨hst, hstore⟩ := h
      obtain ⟨hnu, l, hsu, hstore2⟩ := register_ok_inv heq
      subst hnu
      subst hstore2
      exact ⟨l, hsu, hst.symm, by rw [← hstore]⟩

/-- C9: after every successful signUp run, the record persisted under the
currentUser slot is exactly the encoding of the record appended as the last
element of the persisted users list (the two slots agree on success), and
that record carries the trimmed input name and the trimmed lower-cased input
email. -/
theorem c9_slots_agree (name email password : String) (st : AuthState) (store : Store)
    (now : Nat) (nowIso : String) (g su sc : Option String)
    (hok : (signUp name email password st store now nowIso g su sc).2.2 = Except.ok ()) :
    ∃ l, storedUsers store = some l ∧
      (signUp name email password st store now nowIso g su sc).2.1.currentUser =
        some (encodeUser (mkNewUser now (jsTrim name) (jsToLower (jsTrim email)) nowIso)) ∧
      storedUsers (signUp name email password st store now nowIso g su sc).2.1 =
        some (l ++ [mkNewUser now (jsTrim name) (jsToLower (jsTrim email)) nowIso]) ∧
      (l ++ [mkNewUser now (jsTrim name) (jsToLower (jsTrim email)) nowIso]).getLast? =
        some (mkNewUser now (jsTrim name) (jsToLower (jsTrim email)) nowIso) ∧
      decodeUser (encodeUser (mkNewUser now (jsTrim name) (jsToLower (jsTrim email)) nowIso)) =
        some (mkNewUser now (jsTrim name) (jsToLower (jsTrim email)) nowIso) ∧
      (mkNewUser now (jsTrim name) (jsToLower (jsTrim email)) nowIso).name = jsTrim name ∧
      (mkNewUser now (jsTrim name) (jsToLower (jsTrim email)) nowIso).email =
        jsToLower (jsTrim email) := by
  have hpair : signUp name email password st store now nowIso g su sc =
      ((signUp name email password st store now nowIso g su sc).1,
        (signUp name email password st store now nowIso g su sc).2.1,
        (signUp name email password st store now nowIso g su sc).2.2) := rfl
  rw [hok] at hpair
  obtain ⟨l, hsu, hst, hstore⟩ := signUp_ok_inv hpair
  refine ⟨l, hsu, ?_, ?_, ?_, decodeUser_encodeUser _, rfl, rfl⟩
  · rw [hstore]
  · rw [hstore]
    exact storedUsers_encode _ _
  · simp [List.getLast?_concat]

/-- C9 witness at a concrete successful registration. -/
theorem c9_witness :
    ∃ l, storedUsers ⟨none, none⟩ = some l ∧
      (signUp "Ann" "Ann@Example.com" "12345678" ⟨none, false, none⟩ ⟨none, none⟩
          5 "t" none none none).2.1.currentUser =
        some (encodeUser (mkNewUser 5 (jsTrim "Ann") (jsToLower (jsTrim "Ann@Example.com")) "t")) ∧
      storedUsers (signUp "Ann" "Ann@Example.com" "12345678" ⟨none, false, none⟩ ⟨none, none⟩
          5 "t" none none none).2.1 =
        some (l ++ [mkNewUser 5 (jsTrim "Ann") (jsToLower (jsTrim "Ann@Example.com")) "t"]) ∧
      (l ++ [mkNewUser 5 (jsTrim "Ann") (jsToLower (jsTrim "Ann@Example.com")) "t"]).getLast? =
        some (mkNewUser 5 (jsTrim "Ann") (jsToLower (jsTrim "Ann@Example.com")) "t") ∧
      decodeUser (encodeUser (mkNewUser 5 (jsTrim "Ann") (jsToLower (jsTrim "Ann@Example.com")) "t")) =
        some (mkNewUser 5 (jsTrim "Ann") (jsToLower (jsTrim "Ann@Example.com")) "t") ∧
      (mkNewUser 5 (jsTrim "Ann") (jsToLower (jsTrim "Ann@Example.com")) "t").name =
        jsTrim "Ann" ∧
      (mkNewUser 5 (jsTrim "Ann") (jsToLower (jsTrim "Ann@Example.com")) "t").email =
        jsToLower (jsTrim "Ann@Example.com") :=
  c9_slots_agree "Ann" "Ann@Example.com" "12345678" ⟨none, false, none⟩ ⟨none, none⟩
    5 "t" none none none (by rfl)
